import Mathlib

/-!
Shallow embedding of the glice license reporter (package `glice`, files
`glice.go` and `mod/mod.go`), covering dependency resolution
(`getRepository`, `getOtherRepo` with its memo cache), license enrichment
(`gitClient.GetLicense` for the `github.com` and `pkg.go.dev` hosts),
the orchestration `Client.ParseDependencies` (API-key gate, bounded worker
pool, per-repository error logging) and the CSV branch of `Client.Print`.
Go strings are modelled as Lean `String`, the byte slice `version[9:]` as a
character drop (the sliced prefix is ASCII), `fatih/color` attributes as the
ANSI numbers they print, and the memo map as an association list.
-/

namespace Glice

/-- Go `strings.Split` for the one-character separators glice uses
(`"/"`, `"."`, `"G"`): split at every occurrence, keeping empty pieces. -/
def goSplit (sep : Char) (s : String) : List String :=
  (s.toList.splitOn sep).map List.asString

/-- ASCII lowering of one character (the case folding Go's
`strings.EqualFold` performs on the ASCII version strings glice compares). -/
def lowerChar (c : Char) : Char :=
  if 'A' ≤ c ∧ c ≤ 'Z' then Char.ofNat (c.toNat + 32) else c

/-- Case-insensitive string equality: Go `strings.EqualFold`, restricted to
its ASCII behaviour. -/
def equalFold (a b : String) : Bool :=
  (a.toList.map lowerChar).asString = (b.toList.map lowerChar).asString

/-- The white-space predicate of Go `strings.TrimSpace` (ASCII range of
`unicode.IsSpace`). -/
def isSpaceChar (c : Char) : Bool :=
  c = ' ' ∨ c = '\t' ∨ c = '\n' ∨ c = Char.ofNat 11 ∨ c = Char.ofNat 12 ∨ c = '\r'

/-- Go `strings.TrimSpace`. -/
def trimSpace (s : String) : String :=
  (((s.toList.dropWhile isSpaceChar).reverse.dropWhile isSpaceChar).reverse).asString

/-- `Repository` struct of `glice.go` (fields in source order; Go
zero-values as defaults). -/
structure Repository where
  Name : String := ""
  Shortname : String := ""
  URL : String := ""
  Host : String := ""
  Author : String := ""
  Project : String := ""
  Text : String := ""
  License : String := ""
  Version : String := ""
  deriving Repr, DecidableEq

/-- `module.Version` from `golang.org/x/mod/module`: a module path plus the
version requested by the manifest. -/
structure ModVersion where
  Path : String
  Version : String
  deriving Repr, DecidableEq

/-- The global `cache` map of `glice.go` (`map[string]*Repository`),
modelled as an association list threaded through the resolution calls. -/
abbrev Cache := List (String × Repository)

/-- Construction of the fallback repository performed by `getOtherRepo` on a
cache miss (lines building `lcs`): name and version from the manifest, URL
`https://pkg.go.dev/<path>`, host `pkg.go.dev`. -/
def mkOtherRepo (mod : ModVersion) : Repository :=
  { Name := mod.Path, Version := mod.Version,
    URL := "https://pkg.go.dev/" ++ mod.Path, Host := "pkg.go.dev" }

/-- `getOtherRepo` of `glice.go`: consult the memo cache by module path; on a
hit return the cached repository unchanged, on a miss build the fallback
repository and insert it. Returns the repository together with the updated
cache (the Go code mutates the global map). -/
def getOtherRepo (cache : Cache) (mod : ModVersion) : Repository × Cache :=
  match cache.lookup mod.Path with
  | some v => (v, cache)
  | none =>
    let lcs := mkOtherRepo mod
    (lcs, (mod.Path, lcs) :: cache)

/-- `getRepository` of `glice.go`. Its first statement is
`return getOtherRepo(mod)`, so every module path takes the fallback path;
the host `switch` below that return is unreachable (see
`getRepositorySwitch` for its embedding). -/
def getRepository (cache : Cache) (mod : ModVersion) : Repository × Cache :=
  getOtherRepo cache mod

/-- The unreachable remainder of `getRepository` (the `switch spl[0]`
block): host-based resolution for `github.com`/`gitlab.com`/`bitbucket.org`,
the `gopkg.in` rewrite, and the `getOtherRepo` fallthrough (given here with
a fresh cache entry, the memo map being irrelevant to the dead code's
shape). -/
def getRepositorySwitch (mod : ModVersion) : Repository :=
  let s := mod.Path
  let spl := goSplit '/' s
  let h := spl.headD ""
  if h = "github.com" ∨ h = "gitlab.com" ∨ h = "bitbucket.org" then
    if spl.length < 3 then { Name := s }
    else
      { URL := "https://" ++ spl.getD 0 "" ++ "/" ++ spl.getD 1 "" ++ "/" ++ spl.getD 2 "",
        Host := spl.getD 0 "", Author := spl.getD 1 "", Project := spl.getD 2 "",
        Name := s, Version := mod.Version }
  else if h = "gopkg.in" then
    if spl.length < 3 then { Name := s }
    else
      let proj := (goSplit '.' (spl.getD 2 "")).headD ""
      { URL := "https://github.com/" ++ spl.getD 1 "" ++ "/" ++ proj,
        Host := "github.com", Author := spl.getD 1 "", Project := proj,
        Name := s, Version := mod.Version }
  else mkOtherRepo mod

/-! License colouring (`color.go`): `fatih/color` attributes are modelled by
the ANSI SGR numbers they emit. -/

/-- A `fatih/color` attribute as its ANSI number
(FgRed 31 … FgWhite 37, FgHiRed 91 … FgHiWhite 97). -/
abbrev ColorAttr := Nat

/-- `color.New(attr).Sprintf(s)`: wrap `s` in the ANSI escape for `attr`. -/
def colorWrap (attr : ColorAttr) (s : String) : String :=
  "\x1b[" ++ toString attr ++ "m" ++ s ++ "\x1b[0m"

/-- The `name` field of the `licenseCol` map entry for a license key
(Go map lookup: a missing key yields the zero value `""`). -/
def licenseColName (k : String) : String :=
  if k = "other" then "Other"
  else if k = "mit" then "MIT"
  else if k = "lgpl-3.0" then "LGPL-3.0"
  else if k = "mpl-2.0" then "MPL-2.0"
  else if k = "agpl-3.0" then "AGPL-3.0"
  else if k = "unlicense" then "Unlicense"
  else if k = "apache-2.0" then "Apache-2.0"
  else if k = "gpl-3.0" then "GPL-3.0"
  else ""

/-- The `color` field of the `licenseCol` map entry for a license key
(missing key: zero value `0`). -/
def licenseColColor (k : String) : ColorAttr :=
  if k = "other" then 34
  else if k = "mit" then 32
  else if k = "lgpl-3.0" then 36
  else if k = "mpl-2.0" then 94
  else if k = "agpl-3.0" then 96
  else if k = "unlicense" then 91
  else if k = "apache-2.0" then 92
  else if k = "gpl-3.0" then 95
  else 0

/-- The `licenseColMap` lookup inside `getLicenseColor`. -/
def licenseColMapColor (k : String) : Option ColorAttr :=
  if k = "mit" then some 32
  else if k = "apache-2.0" then some 92
  else if k = "gpl-2.0" then some 35
  else if k = "gpl-3.0" then some 95
  else if k = "lgpl-2.1" then some 36
  else if k = "lgpl-3.0" then some 96
  else if k = "mpl-2.0" then some 94
  else if k = "bsd-2-clause" then some 33
  else if k = "bsd-3-clause" then some 93
  else if k = "epl-2.0" then some 31
  else if k = "artistic-2.0" then some 91
  else if k = "bsl-1.0" then some 34
  else if k = "cc0-1.0" then some 97
  else if k = "unlicense" then some 91
  else if k = "agpl-3.0" then some 96
  else if k = "other" then some 34
  else none

/-- `getLicenseColor` of `color.go`: lowercase the license, look it up in
`licenseColMap`, default to FgYellow (33). -/
def getLicenseColor (license : String) : ColorAttr :=
  match licenseColMapColor ((license.toList.map lowerChar).asString) with
  | some c => c
  | none => 33

/-! `gitClient.GetLicense`. The GitHub API call and the colly page scrape
are the function's only external inputs; they are passed as explicit
oracles. -/

/-- Outcome of the GitHub license API call
(`gc.gh.Repositories.License`): the license key `*rl.License.Key` and the
base64 content `rl.GetContent()`. -/
structure GHLicense where
  key : String
  content : String
  deriving Repr, DecidableEq

/-- What the colly scrape of the `pkg.go.dev` page yields: the `ChildText`
of each of the three registered `OnHTML` selectors (`none` when the selector
matches nothing), plus the error of `c.Visit` (printed, never returned). -/
structure PageScrape where
  versionText : Option String := none
  licenseText : Option String := none
  repoText : Option String := none
  visitErr : Option String := none
  deriving Repr, DecidableEq

/-- The version pipeline of the `UnitHeader-version` handler:
`version[9:]`, `strings.Split(version, "G")[0]`, `strings.TrimSpace`. -/
def extractVersion (raw : String) : String :=
  trimSpace ((goSplit 'G' (raw.drop 9)).headD "")

/-- The `UnitHeader-version` `OnHTML` handler: when the extracted version
differs case-insensitively from the known one, annotate
`"<original> (!new:<discovered>)"`; otherwise leave `Version` alone. -/
def applyVersionHandler (raw : String) (r : Repository) : Repository :=
  let version := extractVersion raw
  if equalFold r.Version version then r
  else { r with Version := r.Version ++ " (!new:" ++ version ++ ")" }

/-- `gitClient.GetLicense` of `color.go`: dispatch on `r.Host`. For
`github.com`, an API error is returned with `r` untouched; on success the
license name (mapped through `licenseCol`, falling back to the raw key with
FgYellow) is written to `Shortname`/`License` and the content to `Text`.
For `pkg.go.dev`, the three scrape handlers update `Version`, `Shortname`
and `Project`; a `Visit` error is only printed and `nil` is returned.
Result: the returned error paired with the repository after mutation. -/
def getLicense (gh : Except String GHLicense) (page : PageScrape)
    (r : Repository) : Option String × Repository :=
  if r.Host = "github.com" then
    match gh with
    | .error e => (some e, r)
    | .ok rl =>
      let name0 := licenseColName rl.key
      let clr0 := licenseColColor rl.key
      let name := if name0 = "" then rl.key else name0
      let clr := if name0 = "" then 33 else clr0
      (none, { r with Shortname := colorWrap clr name, License := name,
                      Text := rl.content })
  else if r.Host = "pkg.go.dev" then
    let r1 := match page.versionText with
      | none => r
      | some raw => applyVersionHandler raw r
    let r2 := match page.licenseText with
      | none => r1
      | some lic => { r1 with Shortname := colorWrap (getLicenseColor lic) lic }
    let r3 := match page.repoText with
      | none => r2
      | some repo => { r2 with Project := repo }
    (none, r3)
  else (none, r)

/-! `Client.ParseDependencies` and `Client.Print`. -/

/-- `ErrNoAPIKey` of `glice.go`. -/
def errNoAPIKey : String := "cannot use thanks feature without github api key"

/-- Enrich one repository: `gitCl.GetLicense(ctx, r1)` with the oracles
chosen per repository. -/
def enrichOne (gh : Repository → Except String GHLicense)
    (page : Repository → PageScrape) (r : Repository) :
    Option String × Repository :=
  getLicense (gh r) (page r) r

/-- Observable outcome of one `ParseDependencies` run: the returned error or
final dependency list, the errors the worker goroutines passed to
`log.Println`, and the URLs for which an enrichment fetch was dispatched. -/
structure RunResult where
  result : Except String (List Repository)
  errorsLogged : List String
  fetched : List String
  deriving Repr

/-- `Client.ParseDependencies` of `glice.go`: fail with `ErrNoAPIKey` when
`thanks` is set and `GITHUB_API_KEY` is empty, before listing repositories
or dispatching any work; propagate a listing error; otherwise enrich every
repository (each worker's `GetLicense` error is only logged) and store the
list. `listed` stands for the `ListRepositories(c.path, includeIndirect)`
call. -/
def parseDependencies (thanks : Bool) (githubAPIKey : String)
    (listed : Except String (List Repository))
    (gh : Repository → Except String GHLicense)
    (page : Repository → PageScrape) : RunResult :=
  if thanks && githubAPIKey == "" then ⟨.error errNoAPIKey, [], []⟩
  else
    match listed with
    | .error e => ⟨.error e, [], []⟩
    | .ok repos =>
      let outs := repos.map (enrichOne gh page)
      ⟨.ok (outs.map Prod.snd), outs.filterMap Prod.fst, repos.map Repository.URL⟩

/-- `headerRow` of `glice.go`. -/
def headerRow : List String := ["Dependency", "RepoURL", "License", "Version"]

/-- The `csv` branch of `Client.Print` as the grid of cell rows it hands to
`csv.Writer`: nothing when the dependency list is empty, else the header row
followed by one row `[d.Project, d.URL, d.License]` per dependency in list
order. -/
def printCSV (deps : List Repository) : List (List String) :=
  if deps.length < 1 then []
  else headerRow :: deps.map (fun d => [d.Project, d.URL, d.License])

/-! The worker-pool semaphore of `ParseDependencies`:
`sem := make(chan struct{}, 5)`, acquired in the dispatch loop before a
goroutine is spawned and released when its work ends. -/

/-- Capacity of the `sem` channel. -/
def semCapacity : Nat := 5

/-- Pool state: goroutines currently holding the semaphore (enrichment
operations in flight) and repositories not yet dispatched. -/
structure PoolState where
  inFlight : Nat
  remaining : Nat
  deriving Repr, DecidableEq

/-- One scheduler step of the dispatch loop: `acquire` is the blocking
`sem <- struct{}{}` before `go func` (enabled only while fewer than
`semCapacity` workers hold the semaphore), `release` is a worker finishing
(`<-sem`). -/
inductive PoolStep : PoolState → PoolState → Prop
  | acquire (s : PoolState) (hq : 0 < s.remaining) (hc : s.inFlight < semCapacity) :
      PoolStep s ⟨s.inFlight + 1, s.remaining - 1⟩
  | release (s : PoolState) (hw : 0 < s.inFlight) :
      PoolStep s ⟨s.inFlight - 1, s.remaining⟩

/-- States a run on `n` repositories can reach: the reflexive-transitive
closure of `PoolStep` from the initial state (no worker in flight, all `n`
repositories pending). -/
def poolReachable (n : Nat) (s : PoolState) : Prop :=
  Relation.ReflTransGen PoolStep ⟨0, n⟩ s

/-! Theorems. -/

/-- C1: the spec claims known-host module paths (github.com / gitlab.com /
bitbucket.org with ≥ 3 segments) resolve to a host/author/project
repository, e.g. github.com/pkg/errors at v0.9.1 to
`{Host := github.com, Author := pkg, Project := errors,
URL := https://github.com/pkg/errors}`. The shipped `getRepository` returns
`getOtherRepo(mod)` unconditionally, so that input actually resolves to the
pkg.go.dev fallback; the unreachable switch below the early return is
exactly what the spec describes. -/
theorem getRepository_shortCircuits_knownHost :
    (getRepository [] ⟨"github.com/pkg/errors", "v0.9.1"⟩).1 =
      { Name := "github.com/pkg/errors",
        URL := "https://pkg.go.dev/github.com/pkg/errors",
        Host := "pkg.go.dev", Version := "v0.9.1" } ∧
    (getRepository [] ⟨"github.com/pkg/errors", "v0.9.1"⟩).1.Host ≠ "github.com" ∧
    getRepositorySwitch ⟨"github.com/pkg/errors", "v0.9.1"⟩ =
      { URL := "https://github.com/pkg/errors", Host := "github.com",
        Author := "pkg", Project := "errors", Name := "github.com/pkg/errors",
        Version := "v0.9.1" } := by
  exact ⟨by decide, by decide, by decide⟩

/-- C2 counterexample: resolving gopkg.in/yaml.v2 at v2.4.0 does not yield
the claimed `{Host := github.com, Author := yaml, Project := yaml,
URL := https://github.com/yaml/yaml}`: the shipped code takes the
pkg.go.dev fallback for every path, and even the unreachable gopkg.in
branch would bail out to `{Name := s}` because the path has only two
slash-separated segments. -/
theorem getRepository_gopkg_counterexample :
    (getRepository [] ⟨"gopkg.in/yaml.v2", "v2.4.0"⟩).1.Host ≠ "github.com" ∧
    (getRepository [] ⟨"gopkg.in/yaml.v2", "v2.4.0"⟩).1.Author ≠ "yaml" ∧
    (getRepository [] ⟨"gopkg.in/yaml.v2", "v2.4.0"⟩).1.URL ≠
      "https://github.com/yaml/yaml" ∧
    getRepositorySwitch ⟨"gopkg.in/yaml.v2", "v2.4.0"⟩ =
      { Name := "gopkg.in/yaml.v2" } := by
  exact ⟨by decide, by decide, by decide, by decide⟩

/-- C2 (amended): a gopkg.in module path resolves, like every other path,
to the pkg.go.dev fallback repository: Host pkg.go.dev, URL
`https://pkg.go.dev/<path>`, Name the full path, Version from the manifest,
Author and Project unset. -/
theorem getRepository_gopkg_fallback (cache : Cache) (mod : ModVersion)
    (hmiss : cache.lookup mod.Path = none)
    (hgopkg : (goSplit '/' mod.Path).headD "" = "gopkg.in") :
    (getRepository cache mod).1 =
      { Name := mod.Path, Version := mod.Version,
        URL := "https://pkg.go.dev/" ++ mod.Path, Host := "pkg.go.dev" } := by
  simp [getRepository, getOtherRepo, hmiss, mkOtherRepo]

/-- C2 witness: the amended claim at gopkg.in/yaml.v2, v2.4.0. -/
theorem getRepository_gopkg_fallback_witness :
    (getRepository [] ⟨"gopkg.in/yaml.v2", "v2.4.0"⟩).1 =
      { Name := "gopkg.in/yaml.v2", Version := "v2.4.0",
        URL := "https://pkg.go.dev/gopkg.in/yaml.v2", Host := "pkg.go.dev" } :=
  (getRepository_gopkg_fallback [] ⟨"gopkg.in/yaml.v2", "v2.4.0"⟩ rfl
    (by decide)).trans (by decide)

/-- C3: a module path matching no known-host or redirector pattern
resolves (on a fresh cache entry) to Host pkg.go.dev, URL
`https://pkg.go.dev/<path>`, Name the full path, Version from the manifest,
with Author and Project left unset. -/
theorem getRepository_fallback_fields (cache : Cache) (mod : ModVersion)
    (hmiss : cache.lookup mod.Path = none)
    (hnoHost : (goSplit '/' mod.Path).headD "" ∉
      (["github.com", "gitlab.com", "bitbucket.org", "gopkg.in"] : List String)) :
    (getRepository cache mod).1.Host = "pkg.go.dev" ∧
    (getRepository cache mod).1.URL = "https://pkg.go.dev/" ++ mod.Path ∧
    (getRepository cache mod).1.Name = mod.Path ∧
    (getRepository cache mod).1.Version = mod.Version ∧
    (getRepository cache mod).1.Author = "" ∧
    (getRepository cache mod).1.Project = "" := by
  simp [getRepository, getOtherRepo, hmiss, mkOtherRepo]

/-- C3 witness: the fallback fields at golang.org/x/mod, v0.5.1. -/
theorem getRepository_fallback_fields_witness :
    (getRepository [] ⟨"golang.org/x/mod", "v0.5.1"⟩).1.Host = "pkg.go.dev" ∧
    (getRepository [] ⟨"golang.org/x/mod", "v0.5.1"⟩).1.URL =
      "https://pkg.go.dev/" ++ "golang.org/x/mod" ∧
    (getRepository [] ⟨"golang.org/x/mod", "v0.5.1"⟩).1.Name = "golang.org/x/mod" ∧
    (getRepository [] ⟨"golang.org/x/mod", "v0.5.1"⟩).1.Version = "v0.5.1" ∧
    (getRepository [] ⟨"golang.org/x/mod", "v0.5.1"⟩).1.Author = "" ∧
    (getRepository [] ⟨"golang.org/x/mod", "v0.5.1"⟩).1.Project = "" :=
  getRepository_fallback_fields [] ⟨"golang.org/x/mod", "v0.5.1"⟩ rfl (by decide)

/-- C4: resolving the same module path a second time is served from the
memo cache: after any resolution, the resulting cache maps the path to the
repository just returned, and resolving again returns that same repository
with the cache unchanged. -/
theorem getOtherRepo_memoizes (cache : Cache) (mod : ModVersion) :
    ((getOtherRepo cache mod).2).lookup mod.Path = some (getOtherRepo cache mod).1 ∧
    getOtherRepo (getOtherRepo cache mod).2 mod = getOtherRepo cache mod := by
  cases h : cache.lookup mod.Path with
  | some v => simp [getOtherRepo, h]
  | none => simp [getOtherRepo, h, List.lookup]

/-- C5: in every state the dispatch loop's semaphore discipline can reach
from `n` pending repositories, at most `semCapacity = 5` enrichment
operations are in flight. -/
theorem poolInFlight_le_capacity (n : Nat) (s : PoolState)
    (h : poolReachable n s) : s.inFlight ≤ semCapacity := by
  induction h with
  | refl => simp
  | tail _ hstep ih =>
    cases hstep with
    | acquire hq hc => simpa using hc
    | release hw => simp only [semCapacity] at *; omega

/-- C5 witness: the bound at the state reached from seven pending
repositories by dispatching one worker. -/
theorem poolInFlight_le_capacity_witness :
    (⟨1, 6⟩ : PoolState).inFlight ≤ semCapacity :=
  poolInFlight_le_capacity 7 ⟨1, 6⟩
    (Relation.ReflTransGen.single (PoolStep.acquire ⟨0, 7⟩ (by decide) (by decide)))

/-- C6: a per-repository enrichment failure is isolated. When the GitHub
license lookup for the i-th repository fails, its `GetLicense` call returns
the error with the repository unchanged (License and Text still empty);
`ParseDependencies` nevertheless succeeds with every repository's own
enrichment result in order, and the failing repository's error is only
logged. -/
theorem parseDependencies_isolates_failure (rs : List Repository)
    (gh : Repository → Except String GHLicense) (page : Repository → PageScrape)
    (apiKey : String) (i : Nat) (hi : i < rs.length) (e : String)
    (hhost : rs[i].Host = "github.com") (herr : gh rs[i] = .error e) :
    (parseDependencies false apiKey (.ok rs) gh page).result =
      .ok (rs.map (fun r => (enrichOne gh page r).2)) ∧
    enrichOne gh page rs[i] = (some e, rs[i]) ∧
    e ∈ (parseDependencies false apiKey (.ok rs) gh page).errorsLogged := by
  have hone : enrichOne gh page rs[i] = (some e, rs[i]) := by
    simp [enrichOne, getLicense, hhost, herr]
  refine ⟨by simp [parseDependencies], hone, ?_⟩
  show e ∈ (rs.map (enrichOne gh page)).filterMap Prod.fst
  exact List.mem_filterMap.mpr ⟨enrichOne gh page rs[i],
    List.mem_map_of_mem _ (List.getElem_mem hi), by rw [hone]⟩

/-- C6 witness: a one-element run whose single GitHub lookup fails with
"boom". -/
theorem parseDependencies_isolates_failure_witness :
    (parseDependencies false ""
        (.ok [{ Name := "github.com/pkg/errors", Host := "github.com" }])
        (fun _ => .error "boom") (fun _ => {})).result =
      .ok ([{ Name := "github.com/pkg/errors", Host := "github.com" }].map
        (fun r => (enrichOne (fun _ => .error "boom") (fun _ => {}) r).2)) ∧
    enrichOne (fun _ => .error "boom") (fun _ => {})
        ([{ Name := "github.com/pkg/errors", Host := "github.com" }])[0] =
      (some "boom", ([{ Name := "github.com/pkg/errors", Host := "github.com" }])[0]) ∧
    "boom" ∈ (parseDependencies false ""
        (.ok [{ Name := "github.com/pkg/errors", Host := "github.com" }])
        (fun _ => .error "boom") (fun _ => {})).errorsLogged :=
  parseDependencies_isolates_failure
    [{ Name := "github.com/pkg/errors", Host := "github.com" }]
    (fun _ => .error "boom") (fun _ => {}) "" 0 (by decide) "boom" rfl rfl

/-- C7: requesting the thanks feature with an absent or empty
GITHUB_API_KEY fails with ErrNoAPIKey whatever the manifest holds: nothing
is listed, no enrichment error is logged, and no fetch is dispatched. -/
theorem parseDependencies_thanks_requires_key
    (listed : Except String (List Repository))
    (gh : Repository → Except String GHLicense)
    (page : Repository → PageScrape) :
    parseDependencies true "" listed gh page = ⟨.error errNoAPIKey, [], []⟩ := by
  rfl

/-- C8: the spec claims CSV rows carry dependency name, URL, license and
version under the four-column header. The code writes three-cell rows
`[d.Project, d.URL, d.License]`: the Version column is missing and the
first cell is `Project`, not the dependency `Name` (here "errors" instead
of "github.com/pkg/errors", and no "v0.9.1" cell), though rows do keep list
order after the fixed header. -/
theorem printCSV_row_shape :
    printCSV
      [{ Name := "github.com/pkg/errors", Project := "errors",
         URL := "https://github.com/pkg/errors", License := "MIT",
         Version := "v0.9.1" },
       { Name := "golang.org/x/mod", Project := "mod",
         URL := "https://pkg.go.dev/golang.org/x/mod", License := "BSD-3-Clause",
         Version := "v0.5.1" }] =
      [["Dependency", "RepoURL", "License", "Version"],
       ["errors", "https://github.com/pkg/errors", "MIT"],
       ["mod", "https://pkg.go.dev/golang.org/x/mod", "BSD-3-Clause"]] := by
  decide

/-- C9: on the pkg.go.dev path, when the scraped page shows a version, the
repository's Version becomes `"<original> (!new:<discovered>)"` exactly
when the discovered version differs case-insensitively from the declared
one, and stays untouched when they agree. -/
theorem getLicense_version_mark (gh : Except String GHLicense)
    (page : PageScrape) (r : Repository) (raw : String)
    (hhost : r.Host = "pkg.go.dev") (hv : page.versionText = some raw) :
    ((getLicense gh page r).2).Version =
      (if equalFold r.Version (extractVersion raw) then r.Version
       else r.Version ++ " (!new:" ++ extractVersion raw ++ ")") := by
  cases hl : page.licenseText <;> cases hr : page.repoText <;>
    simp [getLicense, hhost, hv, hl, hr, applyVersionHandler] <;>
    split <;> simp [hhost]

/-- C9 witness: a repository declared at v1.0.0 whose page shows v2.4.1 is
annotated, and one whose page shows V1.0.0 (case difference only) is left
unchanged. -/
theorem getLicense_version_mark_witness :
    ((getLicense (.error "") { versionText := some "Version: v2.4.1 Go to latest" }
        { Host := "pkg.go.dev", Version := "v1.0.0" }).2).Version =
      "v1.0.0 (!new:v2.4.1)" ∧
    ((getLicense (.error "") { versionText := some "Version: V1.0.0 Go to latest" }
        { Host := "pkg.go.dev", Version := "v1.0.0" }).2).Version = "v1.0.0" :=
  ⟨(getLicense_version_mark (.error "")
      { versionText := some "Version: v2.4.1 Go to latest" }
      { Host := "pkg.go.dev", Version := "v1.0.0" }
      "Version: v2.4.1 Go to latest" rfl rfl).trans (by decide),
   (getLicense_version_mark (.error "")
      { versionText := some "Version: V1.0.0 Go to latest" }
      { Host := "pkg.go.dev", Version := "v1.0.0" }
      "Version: V1.0.0 Go to latest" rfl rfl).trans (by decide)⟩

/-- C10: on the pkg.go.dev path `GetLicense` always returns nil and never
writes License or Text (nor Name, URL, Host or Author): whatever the scrape
and the GitHub oracle hold, only Shortname, Version and Project can
change, so a fallback-enriched repository keeps an empty License. -/
theorem getLicense_fallback_frame (gh : Except String GHLicense)
    (page : PageScrape) (r : Repository) (hhost : r.Host = "pkg.go.dev") :
    (getLicense gh page r).1 = none ∧
    ((getLicense gh page r).2).License = r.License ∧
    ((getLicense gh page r).2).Text = r.Text ∧
    ((getLicense gh page r).2).Name = r.Name ∧
    ((getLicense gh page r).2).URL = r.URL ∧
    ((getLicense gh page r).2).Host = r.Host ∧
    ((getLicense gh page r).2).Author = r.Author := by
  cases hv : page.versionText <;> cases hl : page.licenseText <;>
    cases hr : page.repoText <;>
    simp [getLicense, hhost, hv, hl, hr, applyVersionHandler] <;>
    split <;> simp [hhost]

/-- C10 witness: a fully successful scrape (version, license and repo all
found, plus a visit error that is only printed) still returns nil and
leaves License and Text empty. -/
theorem getLicense_fallback_frame_witness :
    (getLicense (.ok ⟨"mit", "content"⟩)
        { versionText := some "Version: v2.0.0 Go", licenseText := some "MIT",
          repoText := some "github.com/pkg/errors", visitErr := some "timeout" }
        { Name := "github.com/pkg/errors", Host := "pkg.go.dev",
          URL := "https://pkg.go.dev/github.com/pkg/errors",
          Version := "v0.9.1" }).1 = none ∧
    ((getLicense (.ok ⟨"mit", "content"⟩)
        { versionText := some "Version: v2.0.0 Go", licenseText := some "MIT",
          repoText := some "github.com/pkg/errors", visitErr := some "timeout" }
        { Name := "github.com/pkg/errors", Host := "pkg.go.dev",
          URL := "https://pkg.go.dev/github.com/pkg/errors",
          Version := "v0.9.1" }).2).License = "" ∧
    ((getLicense (.ok ⟨"mit", "content"⟩)
        { versionText := some "Version: v2.0.0 Go", licenseText := some "MIT",
          repoText := some "github.com/pkg/errors", visitErr := some "timeout" }
        { Name := "github.com/pkg/errors", Host := "pkg.go.dev",
          URL := "https://pkg.go.dev/github.com/pkg/errors",
          Version := "v0.9.1" }).2).Text = "" := by
  have h := getLicense_fallback_frame (.ok ⟨"mit", "content"⟩)
    { versionText := some "Version: v2.0.0 Go", licenseText := some "MIT",
      repoText := some "github.com/pkg/errors", visitErr := some "timeout" }
    { Name := "github.com/pkg/errors", Host := "pkg.go.dev",
      URL := "https://pkg.go.dev/github.com/pkg/errors",
      Version := "v0.9.1" } rfl
  exact ⟨h.1, h.2.1, h.2.2.1⟩

end Glice
